import Mathlib

/-!
Verification of the keystore cipher, keystore lifecycle, permission model,
vault registry and proposal state model of the my-solana-wallet repository.

Strings of bytes are modelled as `List Nat` with every element `< 256`;
text strings stay `String` except where character-level processing matters
(the share-link pattern), where `List Char` is used.  External collaborators
(the AES-GCM primitive, PBKDF2, JSON serialization, the chain reader) are
parameters of the definitions that call them; everything the repository
itself computes (packing offsets, base64 transport, status classification,
vote predicates, threshold checks, storage updates) is translated directly
from the source.
-/

/-! ## Base64 transport

The Node implementation serializes the encrypted blob with
`Buffer.toString('base64')` / `Buffer.from(_, 'base64')`; the Web
implementation uses `btoa` / `atob`.  Both are standard padded base64 over
the byte string, modelled here byte-for-byte. -/

def base64Chars : List Char :=
  ['A', 'B', 'C', 'D', 'E', 'F', 'G', 'H', 'I', 'J', 'K', 'L', 'M',
   'N', 'O', 'P', 'Q', 'R', 'S', 'T', 'U', 'V', 'W', 'X', 'Y', 'Z',
   'a', 'b', 'c', 'd', 'e', 'f', 'g', 'h', 'i', 'j', 'k', 'l', 'm',
   'n', 'o', 'p', 'q', 'r', 's', 't', 'u', 'v', 'w', 'x', 'y', 'z',
   '0', '1', '2', '3', '4', '5', '6', '7', '8', '9', '+', '/']

def b64char (n : Nat) : Char := base64Chars.getD n 'A'

def b64val (c : Char) : Nat := base64Chars.findIdx (fun x => x == c)

def base64Encode : List Nat → List Char
  | [] => []
  | [b1] =>
    [b64char (b1 / 4), b64char (b1 % 4 * 16), '=', '=']
  | [b1, b2] =>
    [b64char (b1 / 4), b64char (b1 % 4 * 16 + b2 / 16), b64char (b2 % 16 * 4), '=']
  | b1 :: b2 :: b3 :: rest =>
    b64char (b1 / 4) :: b64char (b1 % 4 * 16 + b2 / 16) ::
    b64char (b2 % 16 * 4 + b3 / 64) :: b64char (b3 % 64) :: base64Encode rest

def base64Decode : List Char → List Nat
  | c1 :: c2 :: c3 :: c4 :: rest =>
    if c3 = '=' then [b64val c1 * 4 + b64val c2 / 16]
    else if c4 = '=' then
      [b64val c1 * 4 + b64val c2 / 16, b64val c2 % 16 * 16 + b64val c3 / 4]
    else
      (b64val c1 * 4 + b64val c2 / 16) ::
      (b64val c2 % 16 * 16 + b64val c3 / 4) ::
      (b64val c3 % 4 * 64 + b64val c4) :: base64Decode rest
  | _ => []

theorem b64val_b64char : ∀ v, v < 64 → b64val (b64char v) = v := by decide

theorem b64char_ne_pad : ∀ v, v < 64 → b64char v ≠ '=' := by decide

theorem base64_roundtrip (bytes : List Nat) (h : ∀ b ∈ bytes, b < 256) :
    base64Decode (base64Encode bytes) = bytes := by
  induction bytes using base64Encode.induct with
  | case1 => rfl
  | case2 b1 =>
    have hb1 : b1 < 256 := h b1 (by simp)
    simp only [base64Encode, base64Decode, if_pos rfl, if_true]
    rw [b64val_b64char _ (by omega : b1 / 4 < 64),
      b64val_b64char _ (by omega : b1 % 4 * 16 < 64)]
    simp only [List.cons.injEq, and_true]
    omega
  | case3 b1 b2 =>
    have hb1 : b1 < 256 := h b1 (by simp)
    have hb2 : b2 < 256 := h b2 (by simp)
    simp only [base64Encode, base64Decode,
      if_neg (b64char_ne_pad (b2 % 16 * 4) (by omega)), if_pos rfl, if_true]
    rw [b64val_b64char _ (by omega : b1 / 4 < 64),
      b64val_b64char _ (by omega : b1 % 4 * 16 + b2 / 16 < 64),
      b64val_b64char _ (by omega : b2 % 16 * 4 < 64)]
    simp only [List.cons.injEq, and_true]
    omega
  | case4 b1 b2 b3 rest ih =>
    have hb1 : b1 < 256 := h b1 (by simp)
    have hb2 : b2 < 256 := h b2 (by simp)
    have hb3 : b3 < 256 := h b3 (by simp)
    have hrest : ∀ b ∈ rest, b < 256 := fun b hb => h b (by simp [hb])
    simp only [base64Encode, base64Decode,
      if_neg (b64char_ne_pad (b2 % 16 * 4 + b3 / 64) (by omega)),
      if_neg (b64char_ne_pad (b3 % 64) (by omega))]
    rw [b64val_b64char _ (by omega : b1 / 4 < 64),
      b64val_b64char _ (by omega : b1 % 4 * 16 + b2 / 16 < 64),
      b64val_b64char _ (by omega : b2 % 16 * 4 + b3 / 64 < 64),
      b64val_b64char _ (by omega : b3 % 64 < 64), ih hrest]
    simp only [List.cons.injEq, and_true]
    omega

/-! ## Key Derivation & Cipher wrappers

`skills/crypto.ts` (Node, PBKDF2 + AES-256-GCM with a separate auth tag)
packs `salt(16) ++ iv(12) ++ authTag(16) ++ ciphertext` and base64-encodes
it; `src/utils/crypto.ts` (Web Crypto, tag folded into the ciphertext by
`subtle.encrypt`) packs `salt(16) ++ iv(12) ++ ciphertext`.  The PBKDF2 key
derivation and the AES-GCM primitive live in external libraries, so they
are parameters (`kdf`, `aeadEnc`/`aeadDec` for Node, `gcmEnc`/`gcmDec` for
Web Crypto); the fresh random salt and IV are parameters standing for
`crypto.randomBytes` / `crypto.getRandomValues`.  Plaintext is modelled as
its UTF-8 byte sequence. -/

def SALT_LENGTH : Nat := 16
def IV_LENGTH : Nat := 12
def TAG_LENGTH : Nat := 16

def encrypt (kdf : String → List Nat → List Nat)
    (aeadEnc : List Nat → List Nat → List Nat → List Nat × List Nat)
    (salt iv : List Nat) (data : List Nat) (password : String) : List Char :=
  let key := kdf password salt
  let encrypted := (aeadEnc key iv data).1
  let authTag := (aeadEnc key iv data).2
  base64Encode (salt ++ (iv ++ (authTag ++ encrypted)))

def decrypt (kdf : String → List Nat → List Nat)
    (aeadDec : List Nat → List Nat → List Nat → List Nat → Option (List Nat))
    (encryptedData : List Char) (password : String) : Option (List Nat) :=
  let combined := base64Decode encryptedData
  let salt := combined.take SALT_LENGTH
  let iv := (combined.drop SALT_LENGTH).take IV_LENGTH
  let authTag := (combined.drop (SALT_LENGTH + IV_LENGTH)).take TAG_LENGTH
  let ciphertext := combined.drop (SALT_LENGTH + IV_LENGTH + TAG_LENGTH)
  let key := kdf password salt
  aeadDec key iv authTag ciphertext

def webEncrypt (kdf : String → List Nat → List Nat)
    (gcmEnc : List Nat → List Nat → List Nat → List Nat)
    (salt iv : List Nat) (data : List Nat) (password : String) : List Char :=
  let key := kdf password salt
  let ciphertext := gcmEnc key iv data
  base64Encode (salt ++ (iv ++ ciphertext))

def webDecrypt (kdf : String → List Nat → List Nat)
    (gcmDec : List Nat → List Nat → List Nat → Option (List Nat))
    (encryptedData : List Char) (password : String) : Option (List Nat) :=
  let combined := base64Decode encryptedData
  let salt := combined.take SALT_LENGTH
  let iv := (combined.drop SALT_LENGTH).take IV_LENGTH
  let ciphertext := combined.drop (SALT_LENGTH + IV_LENGTH)
  let key := kdf password salt
  gcmDec key iv ciphertext

theorem take_append_of_length {α : Type} (l₁ l₂ : List α) (n : Nat)
    (h : l₁.length = n) : (l₁ ++ l₂).take n = l₁ := by
  subst h
  simp

theorem drop_append_of_length {α : Type} (l₁ l₂ : List α) (n : Nat)
    (h : l₁.length = n) : (l₁ ++ l₂).drop n = l₂ := by
  subst h
  simp

/-- C1: for every plaintext and password, decrypting the result of
encrypting under the same password returns exactly the plaintext, for both
the Node crypto implementation (`skills/crypto.ts`) and the Web Crypto
implementation (`src/utils/crypto.ts`).  The external AEAD primitive and
KDF are parameters constrained only by the standard AEAD inverse contract
(decrypting with the key derived from the same password and salt, the same
IV and the produced tag yields the plaintext) and by producing byte values;
everything else - the salt/iv/tag/ciphertext packing offsets and the base64
transport - is proved from the repository code. -/
theorem cipher_roundtrip
    (kdf : String → List Nat → List Nat)
    (aeadEnc : List Nat → List Nat → List Nat → List Nat × List Nat)
    (aeadDec : List Nat → List Nat → List Nat → List Nat → Option (List Nat))
    (gcmEnc : List Nat → List Nat → List Nat → List Nat)
    (gcmDec : List Nat → List Nat → List Nat → Option (List Nat))
    (salt iv data : List Nat) (password : String)
    (hsalt : salt.length = SALT_LENGTH) (hiv : iv.length = IV_LENGTH)
    (hsaltB : ∀ b ∈ salt, b < 256) (hivB : ∀ b ∈ iv, b < 256)
    (htag : ((aeadEnc (kdf password salt) iv data).2).length = TAG_LENGTH)
    (htagB : ∀ b ∈ (aeadEnc (kdf password salt) iv data).2, b < 256)
    (hctB : ∀ b ∈ (aeadEnc (kdf password salt) iv data).1, b < 256)
    (haead : aeadDec (kdf password salt) iv (aeadEnc (kdf password salt) iv data).2
        (aeadEnc (kdf password salt) iv data).1 = some data)
    (hgcmB : ∀ b ∈ gcmEnc (kdf password salt) iv data, b < 256)
    (hgcm : gcmDec (kdf password salt) iv (gcmEnc (kdf password salt) iv data)
        = some data) :
    decrypt kdf aeadDec (encrypt kdf aeadEnc salt iv data password) password = some data ∧
    webDecrypt kdf gcmDec (webEncrypt kdf gcmEnc salt iv data password) password
      = some data := by
  constructor
  · set tag := (aeadEnc (kdf password salt) iv data).2 with htagdef
    set ct := (aeadEnc (kdf password salt) iv data).1 with hctdef
    have hbytes : ∀ b ∈ salt ++ (iv ++ (tag ++ ct)), b < 256 := by
      intro b hb
      simp only [List.mem_append] at hb
      rcases hb with h | h | h | h
      exacts [hsaltB b h, hivB b h, htagB b h, hctB b h]
    simp only [decrypt, encrypt]
    rw [base64_roundtrip _ hbytes]
    have e1 : (salt ++ (iv ++ (tag ++ ct))).take SALT_LENGTH = salt :=
      take_append_of_length _ _ _ hsalt
    have e2 : (salt ++ (iv ++ (tag ++ ct))).drop SALT_LENGTH = iv ++ (tag ++ ct) :=
      drop_append_of_length _ _ _ hsalt
    have e3 : (salt ++ (iv ++ (tag ++ ct))).drop (SALT_LENGTH + IV_LENGTH)
        = tag ++ ct := by
      have : salt ++ (iv ++ (tag ++ ct)) = (salt ++ iv) ++ (tag ++ ct) := by
        simp [List.append_assoc]
      rw [this]
      exact drop_append_of_length _ _ _ (by simp [hsalt, hiv, SALT_LENGTH, IV_LENGTH])
    have e4 : (salt ++ (iv ++ (tag ++ ct))).drop (SALT_LENGTH + IV_LENGTH + TAG_LENGTH)
        = ct := by
      have : salt ++ (iv ++ (tag ++ ct)) = ((salt ++ iv) ++ tag) ++ ct := by
        simp [List.append_assoc]
      rw [this]
      exact drop_append_of_length _ _ _
        (by simp [hsalt, hiv, htag, SALT_LENGTH, IV_LENGTH, TAG_LENGTH])
    rw [e1, e2, e3, e4, take_append_of_length _ _ _ hiv,
      take_append_of_length _ _ _ htag]
    exact haead
  · set ct := gcmEnc (kdf password salt) iv data with hctdef
    have hbytes : ∀ b ∈ salt ++ (iv ++ ct), b < 256 := by
      intro b hb
      simp only [List.mem_append] at hb
      rcases hb with h | h | h
      exacts [hsaltB b h, hivB b h, hgcmB b h]
    simp only [webDecrypt, webEncrypt]
    rw [base64_roundtrip _ hbytes]
    have e1 : (salt ++ (iv ++ ct)).take SALT_LENGTH = salt :=
      take_append_of_length _ _ _ hsalt
    have e2 : (salt ++ (iv ++ ct)).drop SALT_LENGTH = iv ++ ct :=
      drop_append_of_length _ _ _ hsalt
    have e3 : (salt ++ (iv ++ ct)).drop (SALT_LENGTH + IV_LENGTH) = ct := by
      have : salt ++ (iv ++ ct) = (salt ++ iv) ++ ct := by
        simp [List.append_assoc]
      rw [this]
      exact drop_append_of_length _ _ _ (by simp [hsalt, hiv, SALT_LENGTH, IV_LENGTH])
    rw [e1, e2, e3, take_append_of_length _ _ _ hiv]
    exact hgcm

theorem cipher_roundtrip_witness :
    decrypt (fun _ _ => []) (fun _ _ _ c => some c)
        (encrypt (fun _ _ => []) (fun _ _ m => (m, List.replicate 16 0))
          (List.replicate 16 0) (List.replicate 12 0) [1, 2, 3] "pw") "pw"
      = some [1, 2, 3] ∧
    webDecrypt (fun _ _ => []) (fun _ _ c => some c)
        (webEncrypt (fun _ _ => []) (fun _ _ m => m)
          (List.replicate 16 0) (List.replicate 12 0) [1, 2, 3] "pw") "pw"
      = some [1, 2, 3] :=
  cipher_roundtrip _ _ _ _ _ _ _ _ _ (by decide) (by decide) (by decide)
    (by decide) (by decide) (by decide) (by decide) rfl (by decide) rfl

/-! ## Keystore

`skills/wallet.ts`.  The file-storage backend holds at most one
`WalletData` record under the fixed key `solana_wallet`; it is modelled as
`Option WalletData`.  Keypair generation, JSON serialization of the secret
key, the cipher calls and `Keypair.fromSecretKey` are external effects or
library calls and therefore parameters; fallible ones return `Option`
(`none` models a thrown exception).  `getKeypair` models the shared
decrypt-parse-reconstruct path of `unlockWallet`/`getKeypair`: the whole
path sits in one `try` block whose `catch` throws `InvalidPasswordError`,
so every failure after the existence check collapses to that error. -/

inductive WalletError
  | NoWallet
  | InvalidPassword
  | WalletExists
  | WeakPassword
deriving DecidableEq, Repr

structure Keypair where
  publicKey : String
  secretKey : List Nat
deriving DecidableEq, Repr

structure WalletData where
  name : String
  publicKey : String
  encryptedSecretKey : String
  createdAt : Nat
deriving DecidableEq, Repr

structure CreateWalletOk where
  address : String
  name : String
deriving DecidableEq, Repr

def MIN_PASSWORD_LENGTH : Nat := 8

def createWallet (encryptF : String → String → String)
    (serializeKey : List Nat → String)
    (generated : Keypair) (now : Nat)
    (storage : Option WalletData) (name password : String) :
    Except WalletError (CreateWalletOk × WalletData) :=
  if password.length < MIN_PASSWORD_LENGTH then .error .WeakPassword
  else
    match storage with
    | some _ => .error .WalletExists
    | none =>
      let publicKey := generated.publicKey
      let encryptedSecretKey := encryptF (serializeKey generated.secretKey) password
      .ok ({ address := publicKey, name := name },
        { name := name, publicKey := publicKey,
          encryptedSecretKey := encryptedSecretKey, createdAt := now })

def getKeypair (decryptF : String → String → Option String)
    (parseSecretKey : String → Option (List Nat))
    (fromSecretKey : List Nat → Option Keypair)
    (storage : Option WalletData) (password : String) :
    Except WalletError Keypair :=
  match storage with
  | none => .error .NoWallet
  | some walletData =>
    match decryptF walletData.encryptedSecretKey password with
    | none => .error .InvalidPassword
    | some secretKeyJson =>
      match parseSecretKey secretKeyJson with
      | none => .error .InvalidPassword
      | some secretKeyArray =>
        match fromSecretKey secretKeyArray with
        | none => .error .InvalidPassword
        | some keypair => .ok keypair

/-- C2 (amended): a missing identity yields `NoWalletError` and an
authentication failure yields `InvalidPasswordError`, but when decryption
succeeds and the plaintext fails to parse as a secret key the keystore
raises the same `InvalidPasswordError` - not a corrupted-wallet condition
distinct from wrong-password. -/
theorem unlock_error_taxonomy
    (decryptF : String → String → Option String)
    (parseSecretKey : String → Option (List Nat))
    (fromSecretKey : List Nat → Option Keypair)
    (password : String) :
    getKeypair decryptF parseSecretKey fromSecretKey none password
      = .error .NoWallet ∧
    (∀ wd, decryptF wd.encryptedSecretKey password = none →
      getKeypair decryptF parseSecretKey fromSecretKey (some wd) password
        = .error .InvalidPassword) ∧
    (∀ wd s, decryptF wd.encryptedSecretKey password = some s →
      parseSecretKey s = none →
      getKeypair decryptF parseSecretKey fromSecretKey (some wd) password
        = .error .InvalidPassword) := by
  refine ⟨rfl, fun wd h => ?_, fun wd s h1 h2 => ?_⟩
  · simp [getKeypair, h]
  · simp [getKeypair, h1, h2]

/-- C2 counterexample: with a cipher that authenticates and decrypts
successfully (returning plaintext that does not parse), `getKeypair`
reports `InvalidPasswordError`, the very same outcome as an authentication
failure - contradicting the claim that the corrupted-wallet condition is
surfaced distinctly from wrong-password. -/
theorem unlock_corrupted_not_distinct :
    getKeypair (fun _ _ => some "not a key") (fun _ => none) (fun _ => none)
        (some { name := "w", publicKey := "pk", encryptedSecretKey := "blob",
                createdAt := 0 }) "right password"
      = .error .InvalidPassword ∧
    getKeypair (fun _ _ => none) (fun _ => none) (fun _ => none)
        (some { name := "w", publicKey := "pk", encryptedSecretKey := "blob",
                createdAt := 0 }) "wrong password"
      = .error .InvalidPassword := by
  exact ⟨rfl, rfl⟩

theorem unlock_witness :
    getKeypair (fun _ _ => none) (fun _ => none) (fun _ => none)
        (some { name := "w", publicKey := "pk", encryptedSecretKey := "b",
                createdAt := 0 }) "pw" = .error .InvalidPassword ∧
    getKeypair (fun _ _ => some "txt") (fun _ => none) (fun _ => none)
        (some { name := "w", publicKey := "pk", encryptedSecretKey := "b",
                createdAt := 0 }) "pw" = .error .InvalidPassword :=
  ⟨(unlock_error_taxonomy (fun _ _ => none) (fun _ => none)
      (fun _ => none) "pw").2.1 _ rfl,
   (unlock_error_taxonomy (fun _ _ => some "txt") (fun _ => none)
      (fun _ => none) "pw").2.2 _ "txt" rfl rfl⟩

/-- C9: wallet creation rejects a password shorter than 8 characters with
`WeakPasswordError` whatever the storage contains (the check precedes any
storage access), rejects creation with `WalletExistsError` when an identity
is already persisted, and otherwise persists the encrypted record and
returns a result carrying only the public address and display name - the
raw secret appears in the return value nowhere. -/
theorem createWallet_spec (encryptF : String → String → String)
    (serializeKey : List Nat → String) (generated : Keypair) (now : Nat)
    (name password : String) :
    (∀ storage, password.length < MIN_PASSWORD_LENGTH →
      createWallet encryptF serializeKey generated now storage name password
        = .error .WeakPassword) ∧
    (∀ wd, ¬password.length < MIN_PASSWORD_LENGTH →
      createWallet encryptF serializeKey generated now (some wd) name password
        = .error .WalletExists) ∧
    (¬password.length < MIN_PASSWORD_LENGTH →
      createWallet encryptF serializeKey generated now none name password
        = .ok ({ address := generated.publicKey, name := name },
          { name := name, publicKey := generated.publicKey,
            encryptedSecretKey :=
              encryptF (serializeKey generated.secretKey) password,
            createdAt := now })) := by
  refine ⟨fun storage h => ?_, fun wd h => ?_, fun h => ?_⟩
  · simp [createWallet, h]
  · simp [createWallet, h]
  · simp [createWallet, h]

theorem createWallet_witness :
    createWallet (fun s _ => s) (fun _ => "sk") ⟨"PK", [1]⟩ 5 none "w" "longenough"
      = .ok ({ address := "PK", name := "w" },
        { name := "w", publicKey := "PK", encryptedSecretKey := "sk",
          createdAt := 5 }) ∧
    createWallet (fun s _ => s) (fun _ => "sk") ⟨"PK", [1]⟩ 5
        (some { name := "w", publicKey := "PK", encryptedSecretKey := "sk",
                createdAt := 5 }) "w" "short"
      = .error .WeakPassword :=
  ⟨(createWallet_spec (fun s _ => s) (fun _ => "sk") ⟨"PK", [1]⟩ 5 "w"
      "longenough").2.2 (by decide),
   (createWallet_spec (fun s _ => s) (fun _ => "sk") ⟨"PK", [1]⟩ 5 "w"
      "short").1 _ (by decide)⟩

/-! ## Proposal State Model and Permission Model

`src/utils/multisig.ts` (`getProposalStatus`), the vote gating of
`VaultDetail` (`hasVoted` and the conditions under which the
Approve/Reject buttons are offered), and the threshold check of
`ExternalCreateVault.handleCreate`.  `classifyProposalStatus` is the
status-classification block of `getProposalStatus`: a chain of
comparisons on `proposal.status.__kind` over an initial value of
`"Draft"`.  `canVote` is the vote-action gating of `VaultDetail`: the
buttons are offered exactly when the proposal is Active, the member has
not voted and holds the vote permission. -/

inductive ProposalStatus
  | Draft
  | Active
  | Approved
  | Rejected
  | Executed
  | Cancelled
deriving DecidableEq, Repr

def classifyProposalStatus (kind : String) : ProposalStatus :=
  if kind = "Active" then .Active
  else if kind = "Approved" then .Approved
  else if kind = "Rejected" then .Rejected
  else if kind = "Executed" then .Executed
  else if kind = "Cancelled" then .Cancelled
  else .Draft

structure MemberPermissions where
  initiate : Bool
  vote : Bool
  execute : Bool
deriving DecidableEq, Repr

structure MemberInfo where
  publicKey : String
  permissions : MemberPermissions
deriving DecidableEq, Repr

structure ProposalInfo where
  index : Nat
  status : ProposalStatus
  approvals : List String
  rejections : List String
deriving DecidableEq, Repr

def hasVoted (userPubKey : String) (proposal : ProposalInfo) : Bool :=
  proposal.approvals.contains userPubKey ||
  proposal.rejections.contains userPubKey

def canVote (proposal : ProposalInfo) (member : MemberInfo) : Bool :=
  decide (proposal.status = ProposalStatus.Active) &&
  (!hasVoted member.publicKey proposal && member.permissions.vote)

def voterCount (members : List MemberInfo) : Nat :=
  (members.filter (fun m => m.permissions.vote)).length

inductive ThresholdValidation
  | ok
  | invalidThreshold
deriving DecidableEq, Repr

def validateThreshold (threshold : Int) (members : List MemberInfo) : ThresholdValidation :=
  if threshold < 1 ∨ (voterCount members : Int) < threshold then .invalidThreshold
  else .ok

def exampleMembers : List MemberInfo :=
  [{ publicKey := "A", permissions := { initiate := true, vote := true, execute := true } },
   { publicKey := "B", permissions := { initiate := true, vote := true, execute := false } },
   { publicKey := "C", permissions := { initiate := true, vote := false, execute := true } }]

/-- C3 counterexample: the classifier maps the unrecognized raw tag
"Bogus" to `Draft` silently; it does not fail with an
`UnknownStatusError` (the code has no such error path - `status` starts
at "Draft" and is only overwritten for the five recognized tags). -/
theorem classify_counterexample :
    classifyProposalStatus "Bogus" = ProposalStatus.Draft := by decide

/-- C3 (amended): the classifier maps each of the five recognized
non-draft raw tags to its status, and every other tag - the chain's own
Draft tag as well as any unrecognized tag - silently defaults to `Draft`;
no `UnknownStatusError` is raised. -/
theorem classify_total (kind : String) :
    classifyProposalStatus "Active" = .Active ∧
    classifyProposalStatus "Approved" = .Approved ∧
    classifyProposalStatus "Rejected" = .Rejected ∧
    classifyProposalStatus "Executed" = .Executed ∧
    classifyProposalStatus "Cancelled" = .Cancelled ∧
    (kind ≠ "Active" → kind ≠ "Approved" → kind ≠ "Rejected" →
      kind ≠ "Executed" → kind ≠ "Cancelled" →
      classifyProposalStatus kind = .Draft) := by
  refine ⟨by decide, by decide, by decide, by decide, by decide,
    fun h1 h2 h3 h4 h5 => ?_⟩
  simp [classifyProposalStatus, h1, h2, h3, h4, h5]

theorem classify_total_witness :
    classifyProposalStatus "ExecutingTransaction" = .Draft :=
  (classify_total "ExecutingTransaction").2.2.2.2.2
    (by decide) (by decide) (by decide) (by decide) (by decide)

/-- C4: a member may vote iff the proposal status is Active, the member
holds the vote permission, and the member appears in neither the
approvals nor the rejections list; in particular once the member appears
in either list, `canVote` is false. -/
theorem canVote_spec (p : ProposalInfo) (m : MemberInfo) :
    (canVote p m = true ↔
      p.status = ProposalStatus.Active ∧ m.permissions.vote = true ∧
      m.publicKey ∉ p.approvals ∧ m.publicKey ∉ p.rejections) ∧
    (m.publicKey ∈ p.approvals → canVote p m = false) ∧
    (m.publicKey ∈ p.rejections → canVote p m = false) := by
  have h : canVote p m = true ↔
      p.status = ProposalStatus.Active ∧ m.permissions.vote = true ∧
      m.publicKey ∉ p.approvals ∧ m.publicKey ∉ p.rejections := by
    simp [canVote, hasVoted, List.contains, List.elem_eq_mem]
    tauto
  refine ⟨h, fun ha => ?_, fun hr => ?_⟩
  · rcases Bool.eq_false_or_eq_true (canVote p m) with ht | hf
    · exact absurd (h.mp ht).2.2.1 (by simp [ha])
    · exact hf
  · rcases Bool.eq_false_or_eq_true (canVote p m) with ht | hf
    · exact absurd (h.mp ht).2.2.2 (by simp [hr])
    · exact hf

theorem canVote_witness :
    canVote { index := 1, status := .Active, approvals := ["A"], rejections := [] }
        { publicKey := "A",
          permissions := { initiate := true, vote := true, execute := true } }
      = false :=
  (canVote_spec _ _).2.1 (by decide)

/-- C5: threshold validation succeeds iff `1 <= t <= voterCount`
(members holding the vote permission); with three members of which two
hold vote permission, threshold 2 passes and threshold 3 is rejected as
an invalid threshold. -/
theorem validateThreshold_spec (t : Int) (members : List MemberInfo) :
    (validateThreshold t members = .ok ↔
      1 ≤ t ∧ t ≤ (voterCount members : Int)) ∧
    voterCount exampleMembers = 2 ∧
    validateThreshold 2 exampleMembers = .ok ∧
    validateThreshold 3 exampleMembers = .invalidThreshold := by
  refine ⟨?_, by decide, by decide, by decide⟩
  unfold validateThreshold
  split
  · next hcond => constructor
                  · intro h
                    exact absurd h (by decide)
                  · intro h
                    omega
  · next hcond =>
    push_neg at hcond
    simp only [true_iff]
    omega

theorem validateThreshold_witness :
    validateThreshold 2 exampleMembers = .ok :=
  (validateThreshold_spec 2 exampleMembers).2.2.1

/-! ## Recent-proposal window

`getProposals` in `src/utils/multisig.ts` fetches indices
`max(1, transactionIndex - 19) .. transactionIndex` and reverses the
collected list, so at most the 20 most recent proposals are read, most
recent first.  The per-index chain read (`getProposalStatus`, which may
return null) is the parameter `fetch`. -/

def getProposals (fetch : Nat → Option ProposalInfo) (transactionIndex : Nat) :
    List ProposalInfo :=
  let currentIndex := transactionIndex
  let startIndex := max 1 (currentIndex - 19)
  ((List.range' startIndex (currentIndex + 1 - startIndex)).filterMap fetch).reverse

/-- C8: for a vault whose current transaction index is `n`, listing
recent proposals reads only indices `max 1 (n - 19) .. n` (hence at most
20), and - provided the chain reader reports each proposal under its own
index - returns them ordered by index strictly descending. -/
theorem getProposals_spec (fetch : Nat → Option ProposalInfo) (n : Nat)
    (hidx : ∀ i p, fetch i = some p → p.index = i) :
    (getProposals fetch n).length ≤ 20 ∧
    (∀ p ∈ getProposals fetch n,
      ∃ i, max 1 (n - 19) ≤ i ∧ i ≤ n ∧ fetch i = some p) ∧
    (getProposals fetch n).Pairwise (fun a b => b.index < a.index) := by
  refine ⟨?_, ?_, ?_⟩
  · unfold getProposals
    simp only [List.length_reverse]
    calc ((List.range' (max 1 (n - 19)) (n + 1 - max 1 (n - 19))).filterMap fetch).length
        ≤ (List.range' (max 1 (n - 19)) (n + 1 - max 1 (n - 19))).length :=
          List.length_filterMap_le _ _
      _ ≤ 20 := by simp [List.length_range']; omega
  · intro p hp
    unfold getProposals at hp
    rw [List.mem_reverse, List.mem_filterMap] at hp
    obtain ⟨i, hi, hfi⟩ := hp
    rw [List.mem_range'_1] at hi
    exact ⟨i, by omega, by omega, hfi⟩
  · unfold getProposals
    rw [List.pairwise_reverse]
    have hr : (List.range' (max 1 (n - 19)) (n + 1 - max 1 (n - 19))).Pairwise (· < ·) :=
      List.pairwise_lt_range' _ _
    refine List.Pairwise.filterMap fetch ?_ hr
    intro a b hab x hx y hy
    have : x.index = a := hidx a x hx
    have : y.index = b := hidx b y hy
    omega

theorem getProposals_witness :
    (getProposals (fun i => if i ≤ 30 then
        some { index := i, status := .Active, approvals := [], rejections := [] }
      else none) 25).length ≤ 20 :=
  (getProposals_spec _ 25 (fun i p hp => by
    by_cases h : i ≤ 30
    · simp [h] at hp
      simp [← hp]
    · simp [h] at hp)).1

/-! ## Vault Registry storage

`multisig-storage.ts`.  The persisted `Record<string, StoredMultisig[]>`
(per-owner vault lists) is modelled as a total map
`String -> List StoredMultisig` with default `[]`, matching
`data[owner] || []`.  `saveMultisigAddress` appends only when no entry
with the same `multisigPda` is present; the sync and async variants share
this exact logic, so one definition covers both. -/

structure StoredMultisig where
  multisigPda : String
  createKey : String
deriving DecidableEq, Repr

def saveMultisigAddress (data : String → List StoredMultisig)
    (ownerPublicKey pda createKey : String) : String → List StoredMultisig :=
  let list := data ownerPublicKey
  if list.any (fun m => m.multisigPda == pda) then data
  else fun o =>
    if o = ownerPublicKey then list ++ [{ multisigPda := pda, createKey := createKey }]
    else data o

theorem save_noop (d : String → List StoredMultisig) (o v k : String)
    (h : (d o).any (fun m => m.multisigPda == v) = true) :
    saveMultisigAddress d o v k = d := by
  simp only [saveMultisigAddress, h, if_true]

/-- C6: registration is idempotent - registering the same vault twice in
succession is a no-op the second time and leaves the owner's stored list
with exactly one entry for that vault (from any state respecting the
registry invariant that a vault appears at most once). -/
theorem register_idempotent (data : String → List StoredMultisig) (o v k : String)
    (h : ((data o).filter (fun m => m.multisigPda == v)).length ≤ 1) :
    saveMultisigAddress (saveMultisigAddress data o v k) o v k
      = saveMultisigAddress data o v k ∧
    (((saveMultisigAddress (saveMultisigAddress data o v k) o v k) o).filter
        (fun m => m.multisigPda == v)).length = 1 := by
  by_cases hany : (data o).any (fun m => m.multisigPda == v)
  · have h1 : saveMultisigAddress data o v k = data := save_noop data o v k hany
    rw [h1]
    refine ⟨h1, ?_⟩
    rw [h1]
    have hpos : 0 < ((data o).filter (fun m => m.multisigPda == v)).length := by
      rw [List.any_eq_true] at hany
      obtain ⟨m, hm, hv⟩ := hany
      have hmem : m ∈ (data o).filter (fun m => m.multisigPda == v) :=
        List.mem_filter.mpr ⟨hm, hv⟩
      exact List.length_pos.mpr (fun he => by simp [he] at hmem)
    omega
  · have hfilter0 : (data o).filter (fun m => m.multisigPda == v) = [] := by
      rw [List.eq_nil_iff_forall_not_mem]
      intro m hm
      rw [List.mem_filter] at hm
      exact absurd (List.any_eq_true.mpr ⟨m, hm.1, hm.2⟩) hany
    have h2 : (saveMultisigAddress data o v k) o
        = data o ++ [{ multisigPda := v, createKey := k }] := by
      simp only [saveMultisigAddress, hany, Bool.false_eq_true, if_false, if_pos rfl]
    have hany2 : ((saveMultisigAddress data o v k) o).any
        (fun m => m.multisigPda == v) = true := by
      rw [h2, List.any_append]
      simp
    have h3 : saveMultisigAddress (saveMultisigAddress data o v k) o v k
        = saveMultisigAddress data o v k :=
      save_noop _ o v k hany2
    refine ⟨h3, ?_⟩
    rw [h3, h2, List.filter_append, hfilter0]
    simp

theorem register_idempotent_witness :
    saveMultisigAddress (saveMultisigAddress (fun _ => []) "o" "v" "k") "o" "v" "k"
      = saveMultisigAddress (fun _ => []) "o" "v" "k" ∧
    (((saveMultisigAddress (saveMultisigAddress (fun _ => []) "o" "v" "k") "o" "v" "k") "o").filter
        (fun m => m.multisigPda == "v")).length = 1 :=
  register_idempotent (fun _ => []) "o" "v" "k" (by simp)

/-! ## CLI vault creation - member parsing and default threshold

`skills/multisig/create-multisig.ts`: member addresses accumulate into a
`Set<string>` seeded with the creator's address (insertion order
preserved, duplicates dropped), and the threshold defaults to the
majority `Math.ceil(members.length / 2)` when no positive `--threshold`
was supplied.  `memberArgs` stands for the validated, trimmed address
strings of `--members` (an invalid address aborts the command before any
of this logic runs). -/

def addMemberAddress (acc : List String) (addr : String) : List String :=
  if addr ∈ acc then acc else acc ++ [addr]

def parseMembers (creator : String) (memberArgs : List String) : List String :=
  memberArgs.foldl addMemberAddress [creator]

def finalThreshold (threshold : Int) (memberCount : Nat) : Int :=
  if threshold > 0 then threshold else ((memberCount + 1) / 2 : Nat)

theorem parseMembers_invariant (memberArgs : List String) (acc : List String)
    (hacc : acc.Nodup) :
    (memberArgs.foldl addMemberAddress acc).Nodup ∧
    (∀ a ∈ acc, a ∈ memberArgs.foldl addMemberAddress acc) := by
  induction memberArgs generalizing acc with
  | nil => exact ⟨hacc, fun a ha => ha⟩
  | cons x xs ih =>
    simp only [List.foldl_cons]
    by_cases hx : x ∈ acc
    · have : addMemberAddress acc x = acc := by simp [addMemberAddress, hx]
      rw [this]
      exact ih acc hacc
    · have hstep : addMemberAddress acc x = acc ++ [x] := by
        simp [addMemberAddress, hx]
      rw [hstep]
      have hnd : (acc ++ [x]).Nodup := by
        simp [List.nodup_append, hacc, hx]
      obtain ⟨h1, h2⟩ := ih (acc ++ [x]) hnd
      exact ⟨h1, fun a ha => h2 a (List.mem_append_left _ ha)⟩

/-- C10: the creator's address is always a member exactly once, the
parsed member list is duplicate-free, and the threshold defaults to
`ceil(memberCount / 2)` when the supplied threshold is not positive while
a positive supplied threshold is used as-is. -/
theorem cli_members_and_threshold (creator : String) (memberArgs : List String)
    (t : Int) (n : Nat) :
    creator ∈ parseMembers creator memberArgs ∧
    (parseMembers creator memberArgs).count creator = 1 ∧
    (parseMembers creator memberArgs).Nodup ∧
    (t ≤ 0 → finalThreshold t n = ((n + 1) / 2 : Nat)) ∧
    (0 < t → finalThreshold t n = t) := by
  unfold parseMembers
  obtain ⟨hnd, hmem⟩ := parseMembers_invariant memberArgs [creator] (by simp)
  have hc : creator ∈ memberArgs.foldl addMemberAddress [creator] :=
    hmem creator (by simp)
  refine ⟨hc, ?_, hnd, fun ht => ?_, fun ht => ?_⟩
  · have hle := List.nodup_iff_count_le_one.mp hnd creator
    have hge := List.count_pos_iff.mpr hc
    omega
  · have hng : ¬t > 0 := by omega
    simp [finalThreshold, hng]
  · simp [finalThreshold, ht]

theorem cli_members_witness :
    "me" ∈ parseMembers "me" ["a", "me", "a"] ∧
    (parseMembers "me" ["a", "me", "a"]).count "me" = 1 ∧
    finalThreshold 0 3 = 2 :=
  ⟨(cli_members_and_threshold "me" ["a", "me", "a"] 0 3).1,
   (cli_members_and_threshold "me" ["a", "me", "a"] 0 3).2.1,
   (cli_members_and_threshold "me" ["a", "me", "a"] 0 3).2.2.2.1 (by decide)⟩

/-! ## Vault import by address or share link

`skills/multisig/import-vault.ts`.  `extractVaultAddress` translates the
two regular expressions of the source over the trimmed character list:
first the search for `/vault/<base58 32-44>` anywhere in the input
(earliest position, greedy capture of up to 44 base58 characters), then
the anchored whole-string base58 test.  `trimChars` models
`String.prototype.trim` over the full ECMA-262 whitespace set (WhiteSpace
plus LineTerminator code points).  After extraction, `main` runs
`new PublicKey(extractedAddress)` inside the outer try/catch: the
constructor throws unless the string base58-decodes to exactly 32 bytes,
and the catch-all then reports the generic `IMPORT_FAILED` - so a
pattern-valid string that is not a well-formed public key never reaches
the chain.  `isValidPubKey` models that external constructor: base58
decoding (alphabet as in `secretKeyToBase58` of `skills/wallet.ts`) with
one leading zero byte per leading `1` plus the minimal big-endian bytes
of the decoded value, accepted iff the total is 32 bytes.  `importVault`
is then the pipeline of `main`: extraction failure is `INVALID_INPUT`
before any chain access, an invalid public key is `IMPORT_FAILED` before
any chain access, a missing vault account is `VAULT_NOT_FOUND`, a member
list without the owner is `NOT_A_MEMBER`, and otherwise the vault is
registered locally (a no-op when already imported).  The chain reader
(`getMultisigAccount`) is the parameter `chain`; availability failures it
can raise in reality are outside this model. -/

def jsWhitespaceChars : List Char :=
  ['\t', '\n', '\x0b', '\x0c', '\r', ' ', '\u00a0', '\u1680',
   '\u2000', '\u2001', '\u2002', '\u2003', '\u2004', '\u2005', '\u2006',
   '\u2007', '\u2008', '\u2009', '\u200a', '\u2028', '\u2029', '\u202f',
   '\u205f', '\u3000', '\ufeff']

def isJsSpaceChar (c : Char) : Bool := jsWhitespaceChars.contains c

def trimChars (l : List Char) : List Char :=
  ((l.dropWhile isJsSpaceChar).reverse.dropWhile isJsSpaceChar).reverse

def isBase58Char (c : Char) : Bool :=
  decide (('A' ≤ c ∧ c ≤ 'H') ∨ ('J' ≤ c ∧ c ≤ 'N') ∨ ('P' ≤ c ∧ c ≤ 'Z') ∨
    ('a' ≤ c ∧ c ≤ 'k') ∨ ('m' ≤ c ∧ c ≤ 'z') ∨ ('1' ≤ c ∧ c ≤ '9'))

def vaultPathChars : List Char := ['/', 'v', 'a', 'u', 'l', 't', '/']

def tryVaultAt (s : List Char) : Option (List Char) :=
  if s.take 7 = vaultPathChars then
    let run := (s.drop 7).takeWhile isBase58Char
    if 32 ≤ run.length then some (run.take 44) else none
  else none

def findVaultMatch : List Char → Option (List Char)
  | [] => none
  | c :: rest =>
    match tryVaultAt (c :: rest) with
    | some capture => some capture
    | none => findVaultMatch rest

def extractVaultAddress (input : List Char) : Option (List Char) :=
  let trimmed := trimChars input
  match findVaultMatch trimmed with
  | some capture => some capture
  | none =>
    if trimmed.all isBase58Char ∧ 32 ≤ trimmed.length ∧ trimmed.length ≤ 44 then
      some trimmed
    else none

def base58Alphabet : List Char :=
  "123456789ABCDEFGHJKLMNPQRSTUVWXYZabcdefghijkmnopqrstuvwxyz".toList

def base58DigitVal (c : Char) : Nat :=
  base58Alphabet.findIdx (fun x => x == c)

def base58Value (s : List Char) : Nat :=
  s.foldl (fun acc c => acc * 58 + base58DigitVal c) 0

/-- Minimal number of big-endian base-256 digits of `v` (0 for `v = 0`);
the inputs at hand have at most 44 base58 digits, so the answer is always
below 64 and the search never falls through to the default. -/
def byteLength (v : Nat) : Nat :=
  ((List.range 64).find? (fun k => v < 256 ^ k)).getD 64

def isValidPubKey (s : List Char) : Bool :=
  s.all (fun c => base58Alphabet.contains c) &&
  (s.takeWhile (fun c => c == '1')).length + byteLength (base58Value s) == 32

inductive ImportError
  | INVALID_INPUT
  | IMPORT_FAILED
  | VAULT_NOT_FOUND
  | NOT_A_MEMBER
deriving DecidableEq, Repr

structure VaultInfo where
  address : String
  createKey : String
  threshold : Nat
  members : List MemberInfo
deriving DecidableEq, Repr

def importVault (chain : String → Option VaultInfo) (walletAddress : String)
    (store : String → List StoredMultisig) (input : List Char) :
    Except ImportError ((String → List StoredMultisig) × Bool) :=
  match extractVaultAddress input with
  | none => .error .INVALID_INPUT
  | some extracted =>
    if isValidPubKey extracted then
      match chain (String.mk extracted) with
      | none => .error .VAULT_NOT_FOUND
      | some vaultInfo =>
        if vaultInfo.members.any (fun m => m.publicKey == walletAddress) then
          if (store walletAddress).any (fun e => e.multisigPda == vaultInfo.address) then
            .ok (store, true)
          else
            .ok (saveMultisigAddress store walletAddress vaultInfo.address
                  vaultInfo.createKey, false)
        else .error .NOT_A_MEMBER
    else .error .IMPORT_FAILED

theorem ws_not_base58 : ∀ c ∈ jsWhitespaceChars, isBase58Char c = false := by
  decide

theorem base58_not_space (c : Char) (h : isBase58Char c = true) :
    isJsSpaceChar c = false := by
  rcases Bool.eq_false_or_eq_true (isJsSpaceChar c) with hs | hs
  · have hmem : c ∈ jsWhitespaceChars := by
      simpa [isJsSpaceChar] using hs
    rw [ws_not_base58 c hmem] at h
    exact absurd h (by simp)
  · exact hs

theorem dropWhile_eq_self_of_all {p : Char → Bool} (l : List Char)
    (h : ∀ c ∈ l, p c = false) : l.dropWhile p = l := by
  cases l with
  | nil => rfl
  | cons c rest =>
    rw [List.dropWhile_cons, if_neg]
    simp [h c (by simp)]

theorem trimChars_of_base58 (l : List Char) (h : ∀ c ∈ l, isBase58Char c = true) :
    trimChars l = l := by
  have hns : ∀ c ∈ l, isJsSpaceChar c = false :=
    fun c hc => base58_not_space c (h c hc)
  unfold trimChars
  rw [dropWhile_eq_self_of_all l hns,
    dropWhile_eq_self_of_all l.reverse (fun c hc => hns c (List.mem_reverse.mp hc)),
    List.reverse_reverse]

theorem tryVaultAt_not_slash (c : Char) (rest : List Char) (h : c ≠ '/') :
    tryVaultAt (c :: rest) = none := by
  unfold tryVaultAt
  rw [if_neg]
  intro hc
  have h7 : (c :: rest).take 7 = c :: rest.take 6 := rfl
  rw [h7, vaultPathChars] at hc
  simp only [List.cons.injEq] at hc
  exact h hc.1

theorem findVaultMatch_of_base58 (l : List Char)
    (h : ∀ c ∈ l, isBase58Char c = true) : findVaultMatch l = none := by
  induction l with
  | nil => rfl
  | cons c rest ih =>
    have hc : c ≠ '/' := by
      intro he
      have := h c (by simp)
      rw [he] at this
      simp [isBase58Char] at this
    rw [findVaultMatch, tryVaultAt_not_slash c rest hc,
      ih (fun x hx => h x (by simp [hx]))]

theorem save_mem (store : String → List StoredMultisig) (o a k : String) :
    ((saveMultisigAddress store o a k) o).any (fun e => e.multisigPda == a) = true := by
  by_cases hany : (store o).any (fun e => e.multisigPda == a)
  · rw [save_noop store o a k hany]
    exact hany
  · have h2 : (saveMultisigAddress store o a k) o
        = store o ++ [{ multisigPda := a, createKey := k }] := by
      simp only [saveMultisigAddress, hany, Bool.false_eq_true, if_false, if_pos rfl]
    rw [h2, List.any_append]
    simp

/-- C7 counterexample: the 32-character base58 string
`ABCDEFGHJKLMNPQRSTUVWXYZabcdefgh` matches the extraction pattern but
decodes to only 24 bytes, so `new PublicKey` throws and the import exits
with the generic `IMPORT_FAILED` - not with `VAULT_NOT_FOUND`, although
the chain holds no vault at all.  This refutes the claim that a vault
missing on chain always fails with the not-found error. -/
theorem import_invalid_key_counterexample :
    extractVaultAddress ("ABCDEFGHJKLMNPQRSTUVWXYZabcdefgh".toList)
      = some ("ABCDEFGHJKLMNPQRSTUVWXYZabcdefgh".toList) ∧
    importVault (fun _ => none) "w" (fun _ => [])
        ("ABCDEFGHJKLMNPQRSTUVWXYZabcdefgh".toList) = .error .IMPORT_FAILED ∧
    ImportError.IMPORT_FAILED ≠ ImportError.VAULT_NOT_FOUND := by
  have hx : extractVaultAddress ("ABCDEFGHJKLMNPQRSTUVWXYZabcdefgh".toList)
      = some ("ABCDEFGHJKLMNPQRSTUVWXYZabcdefgh".toList) := by decide
  have hv : isValidPubKey ("ABCDEFGHJKLMNPQRSTUVWXYZabcdefgh".toList) = false := by
    decide
  refine ⟨hx, ?_, by decide⟩
  simp only [importVault, hx, hv]
  simp

/-- C7 (amended): import accepts a raw base58 vault address of 32-44
characters or a share URL containing `/vault/<address>`; when no address
can be extracted the input is rejected with `INVALID_INPUT` for every
chain reader and store (so before any chain I/O); when the extracted
string is not a well-formed 32-byte public key the import fails with the
generic `IMPORT_FAILED`, likewise for every chain reader and store; for a
well-formed address, a vault missing on chain fails with
`VAULT_NOT_FOUND`, an owner absent from the member list fails with
`NOT_A_MEMBER`, and otherwise the vault ends up registered in the owner's
local list. -/
theorem importVault_spec (chain : String → Option VaultInfo)
    (walletAddress : String) (store : String → List StoredMultisig)
    (input : List Char) :
    (extractVaultAddress input = none →
      ∀ chain2 store2, importVault chain2 walletAddress store2 input
        = .error .INVALID_INPUT) ∧
    (∀ a, extractVaultAddress input = some a → isValidPubKey a = false →
      ∀ chain2 store2, importVault chain2 walletAddress store2 input
        = .error .IMPORT_FAILED) ∧
    (∀ a, extractVaultAddress input = some a → isValidPubKey a = true →
      chain (String.mk a) = none →
      importVault chain walletAddress store input = .error .VAULT_NOT_FOUND) ∧
    (∀ a v, extractVaultAddress input = some a → isValidPubKey a = true →
      chain (String.mk a) = some v →
      (∀ m ∈ v.members, m.publicKey ≠ walletAddress) →
      importVault chain walletAddress store input = .error .NOT_A_MEMBER) ∧
    (∀ a v, extractVaultAddress input = some a → isValidPubKey a = true →
      chain (String.mk a) = some v →
      (∃ m ∈ v.members, m.publicKey = walletAddress) →
      ∃ result, importVault chain walletAddress store input = .ok result ∧
        (result.1 walletAddress).any (fun e => e.multisigPda == v.address) = true) ∧
    ((∀ c ∈ input, isBase58Char c = true) → 32 ≤ input.length →
      input.length ≤ 44 → extractVaultAddress input = some input) ∧
    extractVaultAddress ("https://app.example/vault/ABCDEFGHJKLMNPQRSTUVWXYZabcdefgh".toList)
      = some ("ABCDEFGHJKLMNPQRSTUVWXYZabcdefgh".toList) := by
  refine ⟨fun hx chain2 store2 => ?_, fun a hx hk chain2 store2 => ?_,
    fun a hx hk hc => ?_, fun a v hx hk hc hm => ?_,
    fun a v hx hk hc hm => ?_, fun hall h32 h44 => ?_, by decide⟩
  · simp [importVault, hx]
  · simp [importVault, hx, hk]
  · simp [importVault, hx, hk, hc]
  · have hmem : v.members.any (fun m => m.publicKey == walletAddress) = false := by
      rw [List.any_eq_false]
      intro m hmm
      simp [hm m hmm]
    simp [importVault, hx, hk, hc, hmem]
  · have hmem : v.members.any (fun m => m.publicKey == walletAddress) = true := by
      rw [List.any_eq_true]
      obtain ⟨m, hmm, he⟩ := hm
      exact ⟨m, hmm, by simp [he]⟩
    by_cases hstore : (store walletAddress).any (fun e => e.multisigPda == v.address)
    · refine ⟨(store, true), ?_, hstore⟩
      simp [importVault, hx, hk, hc, hmem, hstore]
    · refine ⟨(saveMultisigAddress store walletAddress v.address v.createKey, false),
        ?_, save_mem store walletAddress v.address v.createKey⟩
      simp [importVault, hx, hk, hc, hmem, hstore]
  · have htrim : trimChars input = input := trimChars_of_base58 input hall
    simp only [extractVaultAddress, htrim, findVaultMatch_of_base58 input hall]
    rw [if_pos]
    exact ⟨by rw [List.all_eq_true]; exact hall, h32, h44⟩

theorem importVault_witness :
    importVault (fun _ => none) "w" (fun _ => []) ("not an address".toList)
      = .error .INVALID_INPUT ∧
    importVault (fun _ => none) "w" (fun _ => [])
        ("11111111111111111111111111111111".toList) = .error .VAULT_NOT_FOUND ∧
    (∃ result, importVault
        (fun _ => some ⟨"V", "K", 1, [⟨"w", ⟨true, true, true⟩⟩]⟩)
        "w" (fun _ => []) ("11111111111111111111111111111111".toList)
        = .ok result ∧
      (result.1 "w").any (fun e => e.multisigPda == "V") = true) ∧
    importVault (fun _ => none) "w" (fun _ => [])
        ("ABCDEFGHJKLMNPQRSTUVWXYZabcdefgh".toList) = .error .IMPORT_FAILED :=
  ⟨(importVault_spec (fun _ => none) "w" (fun _ => [])
      ("not an address".toList)).1 (by decide) _ _,
   (importVault_spec (fun _ => none) "w" (fun _ => [])
      ("11111111111111111111111111111111".toList)).2.2.1
      ("11111111111111111111111111111111".toList) (by decide) (by decide) rfl,
   (importVault_spec _ "w" (fun _ => [])
      ("11111111111111111111111111111111".toList)).2.2.2.2.1
      ("11111111111111111111111111111111".toList)
      (⟨"V", "K", 1, [⟨"w", ⟨true, true, true⟩⟩]⟩ : VaultInfo)
      (by decide) (by decide) rfl ⟨⟨"w", ⟨true, true, true⟩⟩, by simp, rfl⟩,
   (importVault_spec (fun _ => none) "w" (fun _ => [])
      ("ABCDEFGHJKLMNPQRSTUVWXYZabcdefgh".toList)).2.1
      ("ABCDEFGHJKLMNPQRSTUVWXYZabcdefgh".toList) (by decide) (by decide) _ _⟩
